import Mathlib

/-!
Shallow embedding of the client-side HTTP access layer
(`src/repositories/http.repository.ts`): the request/response pipeline of the
abstract `HttpRepository` class — its in-flight request cache (deduplication
of concurrent GET/HEAD calls), its error classifier `handleError`, the base
backend-error parser `parseBackendError`, and the result-shape coercion that
`customRequest` applies to the response text.  Stateful parts (the
`requestCache` map and the event-loop interleaving of concurrent
`customRequest` invocations) are embedded as an explicit state type with a
step function over request/settlement events.
-/

namespace WebappCore

/-- HTTP methods: the `Methods` union type of the source (line 6). -/
inductive Method where
  | head
  | get
  | post
  | delete
  | put
deriving DecidableEq, Repr

/-- The string written for each method in a template literal. -/
def methodName : Method → String
  | Method.head => "HEAD"
  | Method.get => "GET"
  | Method.post => "POST"
  | Method.delete => "DELETE"
  | Method.put => "PUT"

/-- Line 22: `const isCacheableRequest = type === "GET" || type === "HEAD"`. -/
def isCacheableRequest (type : Method) : Bool :=
  type = Method.get || type = Method.head

/-- Line 23: `` const cacheKey = `${type} ${url}` ``. -/
def cacheKey (type : Method) (url : String) : String :=
  methodName type ++ " " ++ url

/-- Character-list test that `p` is an initial segment of `s`
(the comparison a JavaScript `String.prototype.startsWith` call performs). -/
def charsLeadWith : List Char → List Char → Bool
  | [], _ => true
  | _ :: _, [] => false
  | p :: ps, c :: cs => p = c && charsLeadWith ps cs

/-- JavaScript `s.startsWith(p)`. -/
def jsStartsWith (s p : String) : Bool :=
  charsLeadWith p.data s.data

/-- JavaScript `s.endsWith(p)`: `p` is a final segment of `s`. -/
def jsEndsWith (s p : String) : Bool :=
  charsLeadWith p.data.reverse s.data.reverse

/-- JavaScript `Boolean(s)` on a string: false exactly for the empty string. -/
def jsBooleanOf (s : String) : Bool :=
  s ≠ ""

/-- Error kinds of the taxonomy: `NetError` and `BackError` model classes. -/
inductive ErrKind where
  | net
  | back
deriving DecidableEq, Repr

/-- A thrown `NetError`/`BackError`: message from the constructor, and the
`status`/`body` fields (optional: `handleError` fills them in, the
wrong-returned-type error of `customRequest` leaves them unset). -/
structure AppError where
  kind : ErrKind
  message : String
  status : Option Nat
  body : Option String
deriving DecidableEq, Repr

/-- The template `` `${status} - ${text}` `` used by `handleError` (lines 142,
146) and `parseBackendError` (line 165). -/
def statusDash (status : Nat) (text : String) : String :=
  Nat.repr status ++ " - " ++ text

/-- The fetch `Response` fields the source reads: `status`, `statusText`, and
the body text that `response.text()` yields. -/
structure HttpResponse where
  status : Nat
  statusText : String
  bodyText : String
deriving DecidableEq, Repr

/-- Fetch `Response.ok`: status in the range 200–299 (line 131). -/
def responseOk (r : HttpResponse) : Bool :=
  decide (200 ≤ r.status) && decide (r.status ≤ 299)

/-- The literal part of the description pattern of line 141. -/
def descTag : List Char := "<b>description</b> <u>".data

/-- The closing literal of the description pattern of line 141. -/
def closeTag : List Char := "</u>".data

/-- The lazy group `(.+?)` followed by `</u>`: consume at least one character
that is not a line terminator (`.` under the `u` flag excludes them) and stop
at the first position where `</u>` follows. -/
def lazyCapture : List Char → Option (List Char)
  | [] => none
  | c :: cs =>
    if c = '\n' || c = '\r' then none
    else if charsLeadWith closeTag cs then some [c]
    else
      match lazyCapture cs with
      | some cap => some (c :: cap)
      | none => none

/-- When `p` is an initial segment of `s`, the rest of `s` after it. -/
def stripLead : List Char → List Char → Option (List Char)
  | [], s => some s
  | _ :: _, [] => none
  | p :: ps, c :: cs => if p = c then stripLead ps cs else none

/-- Line 141: `(/<b>description<\/b> <u>(.+?)<\/u>/gu).exec(body)` — scan for
the first position where the whole pattern matches and yield group 1. -/
def execDesc : List Char → Option (List Char)
  | [] => none
  | c :: rest =>
    match stripLead descTag (c :: rest) with
    | some tail =>
      match lazyCapture tail with
      | some cap => some cap
      | none => execDesc rest
    | none => execDesc rest

/-- Lines 163–169, `parseBackendError` (the base, non-overridden behavior):
a `BackError` with message `` `${status} - ${statusText}` `` and the raw body;
the payload's own fields are ignored. -/
def parseBackendError (status : Nat) (statusText : String) (body : String) : AppError :=
  { kind := ErrKind.back
    message := statusDash status statusText
    status := none
    body := some body }

/-- Lines 130–154, `handleError`: `none` when the response is ok (the response
is returned unchanged), otherwise the error the method throws, with its
`status` and `body` fields set from the response before the throw. -/
def handleError (r : HttpResponse) : Option AppError :=
  if responseOk r then none
  else
    let body := r.bodyText
    let error : AppError :=
      if r.status = 401 then
        { kind := ErrKind.net, message := "Authorization exception"
          status := some 401, body := none }
      else if jsStartsWith body "<" then
        let extracted : String :=
          match execDesc body.data with
          | some cap => String.mk cap
          | none => r.statusText
        let msg : String := if extracted = "" then "Ошибка не указана" else extracted
        { kind := ErrKind.net, message := statusDash r.status msg
          status := none, body := none }
      else if jsStartsWith body "\x7b" then
        parseBackendError r.status r.statusText body
      else
        { kind := ErrKind.net, message := statusDash r.status r.statusText
          status := none, body := none }
    some { error with status := some r.status, body := some body }

/-- The runtime category of the `modelConstructor` argument of
`customRequest`: a JavaScript array literal (`Array.isArray` holds, `typeof`
is `"object"`), a plain object, a string, number or boolean primitive,
`undefined`, or a function value (for which no coercion branch matches). -/
inductive ModelKind where
  | jsArray
  | jsObject
  | jsString
  | jsNumber
  | jsBoolean
  | jsUndefined
  | jsFunction
deriving DecidableEq, Repr

/-- `Array.isArray(modelConstructor)` (line 67). -/
def isArrayCtor : ModelKind → Bool
  | ModelKind.jsArray => true
  | _ => false

/-- `typeof modelConstructor` (lines 69–80): an array is an `"object"`. -/
def typeofCtor : ModelKind → String
  | ModelKind.jsArray => "object"
  | ModelKind.jsObject => "object"
  | ModelKind.jsString => "string"
  | ModelKind.jsNumber => "number"
  | ModelKind.jsBoolean => "boolean"
  | ModelKind.jsUndefined => "undefined"
  | ModelKind.jsFunction => "function"

/-- The value `data` holds after the coercion of lines 66–79: the source
either feeds the text to `JSON.parse`, keeps it verbatim, applies `Number` or
`Boolean`, or discards it; the parse itself is kept symbolic. -/
inductive JsData where
  | parsedJson (text : String)
  | rawString (text : String)
  | numberOf (text : String)
  | booleanOf (b : Bool)
  | undef
deriving DecidableEq, Repr

/-- Line 80: the message of the wrong-returned-type `NetError`
(`typeof primitive` is always `"string"`, and the source says `Must by`). -/
def wrongTypeMessage (modelConstructor : ModelKind) : String :=
  "Wrong returned type. Must by " ++ typeofCtor modelConstructor ++ " but return string"

/-- Line 80: `new NetError(...)` for the type mismatch; its `status` and
`body` fields are never set. -/
def wrongTypeError (modelConstructor : ModelKind) : AppError :=
  { kind := ErrKind.net, message := wrongTypeMessage modelConstructor
    status := none, body := none }

/-- Lines 66–93 of `customRequest`: coerce the response text `primitive` to
the declared result shape, or fail with the wrong-returned-type error. -/
def coerceData (modelConstructor : ModelKind) (primitive : String) :
    Except AppError JsData :=
  if isArrayCtor modelConstructor && jsStartsWith primitive "[" then
    Except.ok (JsData.parsedJson primitive)
  else if typeofCtor modelConstructor = "object" && jsStartsWith primitive "\x7b" then
    Except.ok (JsData.parsedJson primitive)
  else if typeofCtor modelConstructor = "string" then
    Except.ok (JsData.rawString primitive)
  else if typeofCtor modelConstructor = "number" then
    Except.ok (JsData.numberOf primitive)
  else if typeofCtor modelConstructor = "boolean" then
    Except.ok (JsData.booleanOf (jsBooleanOf primitive))
  else if typeofCtor modelConstructor = "undefined" then
    Except.ok JsData.undef
  else
    Except.error (wrongTypeError modelConstructor)

/-! The `JSON.parse` calls of lines 68 and 70 sit outside the `try` of
lines 38–64: they throw a `SyntaxError` exactly when their argument is not
valid JSON text, and that throw escapes `customRequest` without reaching any
of the drain/delete blocks.  The following checker embeds the JSON grammar
(ECMA-404, what `JSON.parse` accepts): `jsonValid text` holds iff
`JSON.parse(text)` returns normally. -/

/-- JSON insignificant whitespace: space, tab, line feed, carriage return. -/
def isJsonWs (c : Char) : Bool :=
  c = ' ' || c = '\t' || c = '\n' || c = '\r'

/-- Drop leading JSON whitespace. -/
def skipJsonWs : List Char → List Char
  | [] => []
  | c :: cs => if isJsonWs c then skipJsonWs cs else c :: cs

/-- A decimal digit. -/
def isJsonDigit (c : Char) : Bool :=
  '0' ≤ c && c ≤ '9'

/-- Consume leading decimal digits, returning how many and the rest. -/
def takeDigits : List Char → Nat × List Char
  | [] => (0, [])
  | c :: cs =>
    if isJsonDigit c then
      let r := takeDigits cs
      (r.1 + 1, r.2)
    else (0, c :: cs)

/-- The integer part of a JSON number: `0`, or a nonzero digit then digits. -/
def parseJsonInt : List Char → Option (List Char)
  | [] => none
  | c :: cs =>
    if c = '0' then some cs
    else if isJsonDigit c then some (takeDigits cs).2
    else none

/-- The optional fraction part of a JSON number: `.` then one or more digits. -/
def parseJsonFrac (s : List Char) : Option (List Char) :=
  match s with
  | '.' :: cs =>
    match cs with
    | d :: _ => if isJsonDigit d then some (takeDigits cs).2 else none
    | [] => none
  | _ => some s

/-- The optional exponent part: `e`/`E`, optional sign, one or more digits. -/
def parseJsonExp (s : List Char) : Option (List Char) :=
  match s with
  | [] => some []
  | c :: cs =>
    if c = 'e' || c = 'E' then
      let cs2 := match cs with
        | s2 :: rest => if s2 = '+' || s2 = '-' then rest else s2 :: rest
        | [] => []
      match cs2 with
      | d :: _ => if isJsonDigit d then some (takeDigits cs2).2 else none
      | [] => none
    else some (c :: cs)

/-- A JSON number: optional minus, integer, optional fraction and exponent. -/
def parseJsonNumber (s : List Char) : Option (List Char) :=
  let s1 := match s with
    | '-' :: cs => cs
    | _ => s
  match parseJsonInt s1 with
  | none => none
  | some s2 =>
    match parseJsonFrac s2 with
    | none => none
    | some s3 => parseJsonExp s3

/-- A hexadecimal digit. -/
def isHexDigit (c : Char) : Bool :=
  isJsonDigit c || ('a' ≤ c && c ≤ 'f') || ('A' ≤ c && c ≤ 'F')

/-- The rest of a JSON string after the opening quote: unescaped characters
above U+001F, the short escapes, and `\uXXXX`; ends at the closing quote. -/
def parseJsonStringRest : List Char → Option (List Char)
  | [] => none
  | c :: cs =>
    if c = '"' then some cs
    else if c = '\\' then
      match cs with
      | [] => none
      | 'u' :: h1 :: h2 :: h3 :: h4 :: cs3 =>
        if isHexDigit h1 && isHexDigit h2 && isHexDigit h3 && isHexDigit h4 then
          parseJsonStringRest cs3
        else none
      | e :: cs2 =>
        if e = '"' || e = '\\' || e = '/' || e = 'b' || e = 'f'
            || e = 'n' || e = 'r' || e = 't' then
          parseJsonStringRest cs2
        else none
    else if c.toNat < 32 then none
    else parseJsonStringRest cs

mutual

/-- One JSON value (with leading whitespace); yields the unconsumed rest.
The fuel only bounds nesting and is ample at the text's length. -/
def jsonValue : Nat → List Char → Option (List Char)
  | 0, _ => none
  | fuel + 1, s =>
    match skipJsonWs s with
    | [] => none
    | '"' :: cs => parseJsonStringRest cs
    | '\x7b' :: cs =>
      (match skipJsonWs cs with
       | '\x7d' :: cs2 => some cs2
       | _ => jsonObjectBody fuel cs)
    | '[' :: cs =>
      (match skipJsonWs cs with
       | ']' :: cs2 => some cs2
       | _ => jsonArrayBody fuel cs)
    | 't' :: cs => stripLead "rue".data cs
    | 'f' :: cs => stripLead "alse".data cs
    | 'n' :: cs => stripLead "ull".data cs
    | s2 => parseJsonNumber s2

/-- Members of a non-empty JSON object: `string : value` pairs separated by
commas, closed by `}`. -/
def jsonObjectBody : Nat → List Char → Option (List Char)
  | 0, _ => none
  | fuel + 1, s =>
    match skipJsonWs s with
    | '"' :: cs =>
      (match parseJsonStringRest cs with
       | none => none
       | some cs2 =>
         match skipJsonWs cs2 with
         | ':' :: cs3 =>
           (match jsonValue fuel cs3 with
            | none => none
            | some cs4 =>
              match skipJsonWs cs4 with
              | ',' :: cs5 => jsonObjectBody fuel cs5
              | '\x7d' :: cs5 => some cs5
              | _ => none)
         | _ => none)
    | _ => none

/-- Elements of a non-empty JSON array: values separated by commas, closed
by `]`. -/
def jsonArrayBody : Nat → List Char → Option (List Char)
  | 0, _ => none
  | fuel + 1, s =>
    match jsonValue fuel s with
    | none => none
    | some cs =>
      match skipJsonWs cs with
      | ',' :: cs2 => jsonArrayBody fuel cs2
      | ']' :: cs2 => some cs2
      | _ => none

end

/-- `JSON.parse(text)` returns normally iff `text` is one JSON value with
only whitespace around it; on any other text it throws a `SyntaxError`. -/
def jsonValid (text : String) : Bool :=
  match jsonValue (text.length + 1) text.data with
  | some rest => (skipJsonWs rest).isEmpty
  | none => false

/-- A network-call settlement as seen by the `try` of lines 38–49: either the
`fetch` promise itself rejects (transport failure) or a response arrives. -/
inductive FetchResult where
  | response (r : HttpResponse)
  | transportFail (msg : String)
deriving DecidableEq, Repr

/-- What a `customRequest` invocation can throw: the transport error rethrown
at line 63, an `AppError` (from `handleError`, or the wrong-returned-type
error of line 80), or the `SyntaxError` a `JSON.parse` of line 68/70 raises
on text that is not valid JSON. -/
inductive ReqError where
  | transport (msg : String)
  | app (e : AppError)
  | syntaxError (text : String)
deriving DecidableEq, Repr

deriving instance DecidableEq for Except

/-- How the owning call terminates once its network call settles, and whether
that termination runs a drain block.  `drains outcome`: a transport failure
or classified error (the catch of lines 50–63), the wrong-returned-type error
(lines 80–92) and a completed coercion (lines 96–107) each reach their
drain/delete block before the owner throws or returns `outcome`.
`escapes e`: when the selected coercion rule is a `JSON.parse` (line 68 or
70) and the text is not valid JSON, the `SyntaxError` is thrown outside the
`try` of lines 38–64 and escapes `customRequest` — no drain block runs, the
owner's promise rejects with `e`. -/
inductive SettleResult where
  | drains (outcome : Except ReqError JsData)
  | escapes (e : ReqError)
deriving DecidableEq, Repr

/-- The termination of the owning call: a transport failure is rethrown as
is; a response goes through `handleError` (lines 48, 130–154) and, when ok,
its text through the coercion of lines 66–93 using the owner's declared
shape, where the `JSON.parse` of a rule that selects one either yields the
parsed data or throws past every drain block. -/
def settleOutcome (modelConstructor : ModelKind) (fr : FetchResult) :
    SettleResult :=
  match fr with
  | FetchResult.transportFail msg =>
    SettleResult.drains (Except.error (ReqError.transport msg))
  | FetchResult.response r =>
    match handleError r with
    | some e => SettleResult.drains (Except.error (ReqError.app e))
    | none =>
      match coerceData modelConstructor r.bodyText with
      | Except.error e => SettleResult.drains (Except.error (ReqError.app e))
      | Except.ok (JsData.parsedJson text) =>
        if jsonValid text then SettleResult.drains (Except.ok (JsData.parsedJson text))
        else SettleResult.escapes (ReqError.syntaxError text)
      | Except.ok d => SettleResult.drains (Except.ok d)

/-- A suspended `customRequest` invocation that performed a network call and
awaits it: the caller, its cache key when the request was cacheable, and the
request body and declared shape it was invoked with. -/
structure Flight where
  caller : Nat
  key : Option String
  body : Option String
  shape : ModelKind
deriving DecidableEq, Repr

/-- The `requestCache` map (line 11): each key holds the ordered list of
joined waiters (their `[res, rej]` tuples, here caller ids). -/
abbrev RequestCache : Type := List (String × List Nat)

/-- `Map.prototype.get` (combined with `has`): lookup by key. -/
def mapGet (cache : RequestCache) (k : String) : Option (List Nat) :=
  match cache with
  | [] => none
  | (k2, v) :: rest => if k2 = k then some v else mapGet rest k

/-- `Map.prototype.set`: replace the entry for `k`, or add one. -/
def mapSet (cache : RequestCache) (k : String) (v : List Nat) : RequestCache :=
  match cache with
  | [] => [(k, v)]
  | (k2, v2) :: rest => if k2 = k then (k, v) :: rest else (k2, v2) :: mapSet rest k v

/-- `Map.prototype.delete`: drop the entry for `k`. -/
def mapDelete (cache : RequestCache) (k : String) : RequestCache :=
  match cache with
  | [] => []
  | (k2, v2) :: rest => if k2 = k then mapDelete rest k else (k2, v2) :: mapDelete rest k

/-- Settlement of a pending slot, as guarded by `requestCache.has(cacheKey)`
in lines 51, 81 and 96: the waiters to notify and the cache afterwards; with
no slot for the key, no waiter is notified and the cache is unchanged. -/
def settleSlot (cache : RequestCache) (k : String) : List Nat × RequestCache :=
  match mapGet cache k with
  | some waiters => (waiters, mapDelete cache k)
  | none => ([], cache)

/-- The event-loop state shared by all `customRequest` invocations: the
`requestCache` map, the suspended invocations awaiting their network call,
the number of network calls performed (`fetch` invocations, line 39), and the
outcomes delivered to callers so far, in delivery order. -/
structure RepoState where
  requestCache : RequestCache
  inflight : List Flight
  networkCalls : Nat
  delivered : List (Nat × Except ReqError JsData)
deriving DecidableEq, Repr

/-- The state before any request. -/
def initState : RepoState :=
  { requestCache := [], inflight := [], networkCalls := 0, delivered := [] }

/-- Lines 22–47: a `customRequest` invocation runs up to its `fetch`.  A
cacheable call whose key already has a slot pushes itself onto the waiter
list and suspends without any network call (lines 27–31); otherwise a
cacheable call installs an empty slot (line 32) and every non-joining call
performs the network call (line 39) and suspends awaiting it. -/
def stepRequest (st : RepoState) (caller : Nat) (type : Method) (url : String)
    (body : Option String) (modelConstructor : ModelKind) : RepoState :=
  let key := cacheKey type url
  if isCacheableRequest type then
    match mapGet st.requestCache key with
    | some waiters =>
      { st with requestCache := mapSet st.requestCache key (waiters ++ [caller]) }
    | none =>
      { st with
          requestCache := mapSet st.requestCache key []
          networkCalls := st.networkCalls + 1
          inflight := st.inflight ++ [{ caller := caller, key := some key
                                        body := body, shape := modelConstructor }] }
  else
    { st with
        networkCalls := st.networkCalls + 1
        inflight := st.inflight ++ [{ caller := caller, key := none
                                      body := body, shape := modelConstructor }] }

/-- First suspended invocation of a caller. -/
def findFlight (fl : List Flight) (caller : Nat) : Option Flight :=
  match fl with
  | [] => none
  | f :: rest => if f.caller = caller then some f else findFlight rest caller

/-- Remove a caller's suspended invocation. -/
def removeFlight (fl : List Flight) (caller : Nat) : List Flight :=
  match fl with
  | [] => []
  | f :: rest => if f.caller = caller then rest else f :: removeFlight rest caller

/-- Lines 48–107: the network call of `caller` settles.  The invocation
resumes and computes its termination.  On a draining termination — and when
it was cacheable and its slot is present — it drains the slot in insertion
order and deletes it (lines 51–62, 81–91, 96–105), each waiter receiving the
very outcome the owner then throws or returns (lines 63, 92, 107).  On a
`JSON.parse` throw (lines 68/70, outside the `try`) nothing drains: the
error reaches only the owner, the slot and its waiters stay in the map. -/
def stepSettle (st : RepoState) (caller : Nat) (fr : FetchResult) : RepoState :=
  match findFlight st.inflight caller with
  | none => st
  | some f =>
    let inflight2 := removeFlight st.inflight caller
    match settleOutcome f.shape fr with
    | SettleResult.escapes e =>
      { st with inflight := inflight2
                delivered := st.delivered ++ [(caller, Except.error e)] }
    | SettleResult.drains outcome =>
      match f.key with
      | none =>
        { st with inflight := inflight2
                  delivered := st.delivered ++ [(caller, outcome)] }
      | some k =>
        let drained := settleSlot st.requestCache k
        { st with
            inflight := inflight2
            requestCache := drained.2
            delivered := st.delivered
                ++ drained.1.map (fun w => (w, outcome)) ++ [(caller, outcome)] }

/-- An event of the single-threaded event loop: a `customRequest` invocation
starts, or the network call a caller awaits settles. -/
inductive Event where
  | request (caller : Nat) (type : Method) (url : String)
      (body : Option String) (shape : ModelKind)
  | settle (caller : Nat) (fr : FetchResult)

/-- One event-loop step. -/
def step (st : RepoState) (e : Event) : RepoState :=
  match e with
  | Event.request c t u b s => stepRequest st c t u b s
  | Event.settle c fr => stepSettle st c fr

/-- Run a sequence of events. -/
def run (st : RepoState) (es : List Event) : RepoState :=
  es.foldl step st

/-- The request events of a burst of concurrent calls to the same
(method, url), each with its own caller id, body and declared shape. -/
def requestBurst (type : Method) (url : String)
    (calls : List (Nat × Option String × ModelKind)) : List Event :=
  calls.map (fun x => Event.request x.1 type url x.2.1 x.2.2)

/-- What one fan-out over a slot's waiter list records: the waiters whose
callback was invoked, in invocation order, and the exceptions passed to
`console.error`. -/
structure FanOut (ε : Type) where
  invoked : List Nat
  consoleLog : List ε
deriving DecidableEq, Repr

/-- The `forEach` of lines 52–60 (and 82–89, 97–104): every waiter tuple's
callback is invoked in list order inside a `try`; an exception a callback
throws is caught and passed to `console.error`, never rethrown. -/
def forEachNotify (ε : Type) (callback : Nat → Except ε Unit)
    (waiters : List Nat) : FanOut ε :=
  match waiters with
  | [] => { invoked := [], consoleLog := [] }
  | w :: rest =>
    let tail := forEachNotify ε callback rest
    match callback w with
    | Except.ok _ => { invoked := w :: tail.invoked, consoleLog := tail.consoleLog }
    | Except.error e => { invoked := w :: tail.invoked, consoleLog := e :: tail.consoleLog }

/-! Helper lemmas shared by the claim theorems. -/

theorem charsLeadWith_self_append (p t : List Char) :
    charsLeadWith p (p ++ t) = true := by
  induction p with
  | nil => rfl
  | cons c ps ih => simp [charsLeadWith, ih]

theorem jsEndsWith_append (a b : String) : jsEndsWith (a ++ b) b = true := by
  show charsLeadWith b.data.reverse ((a ++ b).data).reverse = true
  have hdata : (a ++ b).data = a.data ++ b.data := rfl
  rw [hdata, List.reverse_append]
  exact charsLeadWith_self_append _ _

theorem mapGet_mapDelete (cache : RequestCache) (k : String) :
    mapGet (mapDelete cache k) k = none := by
  induction cache with
  | nil => rfl
  | cons p rest ih =>
    by_cases h : p.1 = k <;> simp [mapDelete, mapGet, h, ih]

theorem mapGet_settleSlot (cache : RequestCache) (k : String) :
    mapGet (settleSlot cache k).2 k = none := by
  unfold settleSlot
  cases h : mapGet cache k with
  | none => simpa using h
  | some ws => simpa using mapGet_mapDelete cache k

/-! Claim theorems. -/

/-- C5: for every response with HTTP status 401, regardless of body text, the
classifier raises a `NetworkError` with message exactly "Authorization
exception", status field 401, and body field the raw response body text. -/
theorem classifier_401_authorization (statusText bodyText : String) :
    handleError (HttpResponse.mk 401 statusText bodyText)
      = some { kind := ErrKind.net, message := "Authorization exception"
               status := some 401, body := some bodyText } := rfl

/-- C7: for a 500 response whose body is the JSON text `{"msg":"boom"}` and
with the base (non-overridden) backend-error parser, the classifier raises a
`BackendError` whose message is `"500 - <statusText>"` — the payload's fields
are ignored — and whose body field is the raw text `{"msg":"boom"}`. -/
theorem classifier_backend_default_message (statusText : String) :
    handleError (HttpResponse.mk 500 statusText "\x7b\"msg\":\"boom\"\x7d")
      = some { kind := ErrKind.back, message := "500 - " ++ statusText
               status := some 500, body := some "\x7b\"msg\":\"boom\"\x7d" } := by
  have h : handleError (HttpResponse.mk 500 statusText "\x7b\"msg\":\"boom\"\x7d")
      = some { kind := ErrKind.back, message := statusDash 500 statusText
               status := some 500, body := some "\x7b\"msg\":\"boom\"\x7d" } := rfl
  rw [h]
  show _ = some { kind := ErrKind.back, message := "500 - " ++ statusText
                  status := some 500, body := some "\x7b\"msg\":\"boom\"\x7d" }
  have hmsg : statusDash 500 statusText = "500 - " ++ statusText := rfl
  rw [hmsg]

/-- C3 (counterexample): with declared shape "ordered sequence" (an array
model constructor), the payload `"{}"` does not start with `[`, yet the
adapter does not fail with the type-mismatch error: an array is also a
JavaScript object, so the structured-object rule matches and the payload is
parsed as JSON. -/
theorem adapter_array_object_payload_parses :
    coerceData ModelKind.jsArray "\x7b\x7d"
      = Except.ok (JsData.parsedJson "\x7b\x7d") := rfl

/-- C3 (amended): with declared shape "ordered sequence" (an array model
constructor), a payload starting with `[` is parsed as a JSON array; a
payload starting with `{` is also parsed as JSON (by the structured-object
rule, since an array constructor has `typeof` `"object"`); for every payload
starting with neither, no coercion rule matches and the adapter fails with
the "Wrong returned type" `NetworkError` — in particular for the payload
`"not-an-array"`. -/
theorem adapter_array_shape (primitive : String) :
    (jsStartsWith primitive "[" = true →
      coerceData ModelKind.jsArray primitive = Except.ok (JsData.parsedJson primitive))
    ∧ (jsStartsWith primitive "[" = false → jsStartsWith primitive "\x7b" = true →
      coerceData ModelKind.jsArray primitive = Except.ok (JsData.parsedJson primitive))
    ∧ (jsStartsWith primitive "[" = false → jsStartsWith primitive "\x7b" = false →
      coerceData ModelKind.jsArray primitive = Except.error (wrongTypeError ModelKind.jsArray))
    ∧ coerceData ModelKind.jsArray "not-an-array"
        = Except.error (wrongTypeError ModelKind.jsArray)
    ∧ jsStartsWith (wrongTypeMessage ModelKind.jsArray) "Wrong returned type" = true := by
  refine ⟨fun h1 => ?_, fun h1 h2 => ?_, fun h1 h2 => ?_, by decide, by decide⟩ <;>
    simp [coerceData, isArrayCtor, typeofCtor, h1]
  · simp [h2]
  · simp [h2]

/-- C3 (witness for the amended claim): concrete payloads exercising the
array rule and the no-rule-matches error. -/
theorem adapter_array_shape_witness :
    coerceData ModelKind.jsArray "[1]" = Except.ok (JsData.parsedJson "[1]")
    ∧ coerceData ModelKind.jsArray "not-an-array"
        = Except.error (wrongTypeError ModelKind.jsArray) := by
  refine ⟨(adapter_array_shape "[1]").1 (by decide), ?_⟩
  exact ((adapter_array_shape "not-an-array").2.2.1 (by decide) (by decide))

/-- C10: for declared shape "boolean", coercion of a successful response
never fails with a type-mismatch error; it yields `true` for every non-empty
payload text — including the text `"false"` — and `false` for the empty
payload text. -/
theorem adapter_boolean_never_mismatch (primitive : String) (h : primitive ≠ "") :
    coerceData ModelKind.jsBoolean primitive = Except.ok (JsData.booleanOf true)
    ∧ coerceData ModelKind.jsBoolean "false" = Except.ok (JsData.booleanOf true)
    ∧ coerceData ModelKind.jsBoolean "" = Except.ok (JsData.booleanOf false)
    ∧ ∀ q : String, ∃ b : Bool,
        coerceData ModelKind.jsBoolean q = Except.ok (JsData.booleanOf b) := by
  have hq : ∀ q : String,
      coerceData ModelKind.jsBoolean q = Except.ok (JsData.booleanOf (jsBooleanOf q)) :=
    fun _ => rfl
  refine ⟨?_, by decide, by decide, fun q => ⟨jsBooleanOf q, hq q⟩⟩
  rw [hq primitive]
  simp [jsBooleanOf, h]

/-- C10 (witness): the non-empty payload `"false"` coerces to `true`. -/
theorem adapter_boolean_witness :
    coerceData ModelKind.jsBoolean "false" = Except.ok (JsData.booleanOf true)
    ∧ coerceData ModelKind.jsBoolean "" = Except.ok (JsData.booleanOf false) := by
  have h := adapter_boolean_never_mismatch "false" (by decide)
  exact ⟨h.1, h.2.2.1⟩

/-- C8: during any settlement fan-out of a pending slot, waiter callbacks are
invoked in insertion (join) order — the invoked list is exactly the slot's
waiter list — and an exception thrown by an individual callback is caught and
passed to the diagnostic channel (`console.error`), never rethrown, so every
remaining waiter in the same settlement is still invoked, whatever the
callbacks do. -/
theorem fanout_notifies_every_waiter (ε : Type) (callback : Nat → Except ε Unit)
    (waiters : List Nat) :
    (forEachNotify ε callback waiters).invoked = waiters
    ∧ (forEachNotify ε callback waiters).consoleLog
        = waiters.filterMap (fun w =>
            match callback w with
            | Except.ok _ => none
            | Except.error e => some e) := by
  induction waiters with
  | nil => exact ⟨rfl, rfl⟩
  | cons w rest ih =>
    refine ⟨?_, ?_⟩ <;> simp only [forEachNotify, List.filterMap_cons] <;>
      cases hcb : callback w <;> simp [hcb, ih.1, ih.2]

/-- C6 (counterexample): a 401 response whose body starts with
`<b>description</b> <u>Not Found</u>` is a non-2xx response, yet the
classifier's 401 rule takes precedence over the HTML-description rule: the
raised error's message is "Authorization exception", which does not end in
"Not Found". -/
theorem classifier_notfound_401_counterexample :
    handleError (HttpResponse.mk 401 "Not Found" "<b>description</b> <u>Not Found</u>")
      = some { kind := ErrKind.net, message := "Authorization exception"
               status := some 401, body := some "<b>description</b> <u>Not Found</u>" }
    ∧ jsEndsWith "Authorization exception" "Not Found" = false :=
  ⟨rfl, by decide⟩

/-- C6 (amended): for every non-2xx response with status other than 401 whose
body text starts with `<b>description</b> <u>Not Found</u>`, the classifier
raises a `NetworkError` whose message ends in "Not Found". -/
theorem classifier_html_description (status : Nat) (statusText rest : String)
    (hok : responseOk (HttpResponse.mk status statusText
        ("<b>description</b> <u>Not Found</u>" ++ rest)) = false)
    (h401 : status ≠ 401) :
    handleError (HttpResponse.mk status statusText
        ("<b>description</b> <u>Not Found</u>" ++ rest))
      = some { kind := ErrKind.net, message := statusDash status "Not Found"
               status := some status
               body := some ("<b>description</b> <u>Not Found</u>" ++ rest) }
    ∧ jsEndsWith (statusDash status "Not Found") "Not Found" = true := by
  constructor
  · have hlt : jsStartsWith ("<b>description</b> <u>Not Found</u>" ++ rest) "<" = true := rfl
    have hcap : execDesc ("<b>description</b> <u>Not Found</u>" ++ rest).data
        = some "Not Found".data := rfl
    have hmk : String.mk "Not Found".data = "Not Found" := rfl
    simp only [handleError, hok, Bool.false_eq_true, if_false, if_neg h401, hlt,
      if_true, hcap, hmk]
    simp
  · exact jsEndsWith_append (Nat.repr status ++ " - ") "Not Found"

/-- C6 (witness for the amended claim): a 404 response with the description
body yields the message "404 - Not Found". -/
theorem classifier_html_description_witness :
    handleError (HttpResponse.mk 404 "Not Found"
        ("<b>description</b> <u>Not Found</u>" ++ ""))
      = some { kind := ErrKind.net, message := statusDash 404 "Not Found"
               status := some 404
               body := some ("<b>description</b> <u>Not Found</u>" ++ "") }
    ∧ jsEndsWith (statusDash 404 "Not Found") "Not Found" = true :=
  classifier_html_description 404 "Not Found" "" (by decide) (by decide)

theorem run_joins (type : Method) (url : String) (h : isCacheableRequest type = true)
    (calls : List (Nat × Option String × ModelKind)) (ws : List Nat)
    (fl : List Flight) (nc : Nat) (dv : List (Nat × Except ReqError JsData)) :
    run (RepoState.mk [(cacheKey type url, ws)] fl nc dv) (requestBurst type url calls)
      = RepoState.mk [(cacheKey type url, ws ++ calls.map (fun x => x.1))] fl nc dv := by
  induction calls generalizing ws with
  | nil => simp [run, requestBurst]
  | cons hd tl ih =>
    have hstep : step (RepoState.mk [(cacheKey type url, ws)] fl nc dv)
        (Event.request hd.1 type url hd.2.1 hd.2.2)
        = RepoState.mk [(cacheKey type url, ws ++ [hd.1])] fl nc dv := by
      simp [step, stepRequest, h, mapGet, mapSet]
    have hrun : run (RepoState.mk [(cacheKey type url, ws)] fl nc dv)
        (requestBurst type url (hd :: tl))
        = run (RepoState.mk [(cacheKey type url, ws ++ [hd.1])] fl nc dv)
            (requestBurst type url tl) := by
      simp only [requestBurst, List.map_cons, run, List.foldl_cons, hstep]
    rw [hrun, ih (ws ++ [hd.1])]
    simp

theorem run_independent (type : Method) (url : String)
    (h : isCacheableRequest type = false)
    (calls : List (Nat × Option String × ModelKind)) (st : RepoState) :
    (run st (requestBurst type url calls)).networkCalls
      = st.networkCalls + calls.length := by
  induction calls generalizing st with
  | nil => simp [run, requestBurst]
  | cons hd tl ih =>
    have hstep : step st (Event.request hd.1 type url hd.2.1 hd.2.2)
        = { st with
              networkCalls := st.networkCalls + 1
              inflight := st.inflight ++ [{ caller := hd.1, key := none
                                            body := hd.2.1, shape := hd.2.2 }] } := by
      simp [step, stepRequest, h]
    have hrun : run st (requestBurst type url (hd :: tl))
        = run { st with
                  networkCalls := st.networkCalls + 1
                  inflight := st.inflight ++ [{ caller := hd.1, key := none
                                                body := hd.2.1, shape := hd.2.2 }] }
            (requestBurst type url tl) := by
      simp only [requestBurst, List.map_cons, run, List.foldl_cons, hstep]
    rw [hrun, ih]
    simp
    omega

theorem stepSettle_drains_clears (st : RepoState) (c : Nat) (fr : FetchResult)
    (f : Flight) (k : String) (outcome : Except ReqError JsData)
    (hf : findFlight st.inflight c = some f) (hk : f.key = some k)
    (hd : settleOutcome f.shape fr = SettleResult.drains outcome) :
    mapGet (stepSettle st c fr).requestCache k = none := by
  simp only [stepSettle, hf, hd, hk]
  exact mapGet_settleSlot st.requestCache k

theorem stepSettle_escapes (st : RepoState) (c : Nat) (fr : FetchResult)
    (f : Flight) (e : ReqError)
    (hf : findFlight st.inflight c = some f)
    (he : settleOutcome f.shape fr = SettleResult.escapes e) :
    (stepSettle st c fr).requestCache = st.requestCache
    ∧ (stepSettle st c fr).delivered = st.delivered ++ [(c, Except.error e)] := by
  simp [stepSettle, hf, he]

/-- C1 (counterexample): two concurrent GETs of the same url coalesce, but
when the owning caller's declared shape is an array and the 200 response body
is the invalid JSON text `"["`, the `JSON.parse` of line 68 throws outside
the `try`: the single performed network call ends with only the owner
rejected (with the `SyntaxError`) and the joined caller 1 never receives any
outcome — so not every caller receives the same resolved value or the same
rejected error. -/
theorem coalescing_parse_throw_counterexample :
    (stepSettle (run initState (requestBurst Method.get "u"
        [(0, none, ModelKind.jsArray), (1, none, ModelKind.jsString)])) 0
        (FetchResult.response (HttpResponse.mk 200 "OK" "["))).delivered
      = [(0, Except.error (ReqError.syntaxError "["))]
    ∧ (stepSettle (run initState (requestBurst Method.get "u"
        [(0, none, ModelKind.jsArray), (1, none, ModelKind.jsString)])) 0
        (FetchResult.response (HttpResponse.mk 200 "OK" "["))).networkCalls = 1 :=
  ⟨rfl, rfl⟩

/-- C1 (amended): coalescing happens exactly for cacheable methods.  For a
burst of concurrent requests with equal (method, url) and a cacheable method
(GET or HEAD), exactly one network call is performed; on any settlement whose
termination drains — transport failure, classified HTTP error, type-mismatch,
or a successfully coerced body — every caller (the joiners in join order,
then the owner) receives that same resolved value or same rejected error; on
a settlement whose `JSON.parse` throws, the `SyntaxError` rejects only the
owner and the joiners are never settled.  For a non-cacheable method (POST,
PUT, DELETE), each concurrent identical call performs its own network
call. -/
theorem coalescing_exactly_for_cacheable (type : Method) (url : String) :
    (isCacheableRequest type = true →
      ∀ (c0 : Nat) (b0 : Option String) (s0 : ModelKind)
        (rest : List (Nat × Option String × ModelKind)) (fr : FetchResult),
        (run initState (requestBurst type url ((c0, b0, s0) :: rest))).networkCalls = 1
        ∧ (∀ outcome, settleOutcome s0 fr = SettleResult.drains outcome →
            (stepSettle (run initState (requestBurst type url ((c0, b0, s0) :: rest)))
                c0 fr).delivered
              = rest.map (fun x => (x.1, outcome)) ++ [(c0, outcome)])
        ∧ (∀ e, settleOutcome s0 fr = SettleResult.escapes e →
            (stepSettle (run initState (requestBurst type url ((c0, b0, s0) :: rest)))
                c0 fr).delivered = [(c0, Except.error e)]
            ∧ mapGet (stepSettle (run initState
                  (requestBurst type url ((c0, b0, s0) :: rest))) c0 fr).requestCache
                (cacheKey type url) = some (rest.map (fun x => x.1))))
    ∧ (isCacheableRequest type = false →
      ∀ calls : List (Nat × Option String × ModelKind),
        (run initState (requestBurst type url calls)).networkCalls = calls.length) := by
  constructor
  · intro h c0 b0 s0 rest fr
    have hfirst : step initState (Event.request c0 type url b0 s0)
        = RepoState.mk [(cacheKey type url, [])]
            [{ caller := c0, key := some (cacheKey type url), body := b0, shape := s0 }]
            1 [] := by
      simp [step, stepRequest, h, initState, mapGet, mapSet]
    have hrun : run initState (requestBurst type url ((c0, b0, s0) :: rest))
        = RepoState.mk [(cacheKey type url, rest.map (fun x => x.1))]
            [{ caller := c0, key := some (cacheKey type url), body := b0, shape := s0 }]
            1 [] := by
      have hcons : run initState (requestBurst type url ((c0, b0, s0) :: rest))
          = run (step initState (Event.request c0 type url b0 s0))
              (requestBurst type url rest) := rfl
      rw [hcons, hfirst, run_joins type url h rest]
      simp
    refine ⟨by rw [hrun], fun outcome hd => ?_, fun e he => ?_⟩
    · rw [hrun]
      simp [stepSettle, findFlight, removeFlight, settleSlot, mapGet, mapDelete,
        hd, List.map_map, Function.comp]
    · rw [hrun]
      simp [stepSettle, findFlight, removeFlight, he, mapGet]
  · intro h calls
    have := run_independent type url h calls initState
    simpa [initState] using this

/-- C1 (witness): two GETs coalesce into one network call and share a
transport error; a parse-throwing GET settle rejects only the owner; two
POSTs make two network calls. -/
theorem coalescing_witness :
    (run initState (requestBurst Method.get "u"
        [(0, none, ModelKind.jsString), (1, none, ModelKind.jsNumber)])).networkCalls = 1
    ∧ (stepSettle (run initState (requestBurst Method.get "u"
        [(0, none, ModelKind.jsString), (1, none, ModelKind.jsNumber)])) 0
        (FetchResult.transportFail "x")).delivered
      = [(1, Except.error (ReqError.transport "x")),
         (0, Except.error (ReqError.transport "x"))]
    ∧ (stepSettle (run initState (requestBurst Method.get "w"
        [(2, none, ModelKind.jsObject), (3, none, ModelKind.jsString)])) 2
        (FetchResult.response (HttpResponse.mk 200 "OK" "\x7b"))).delivered
      = [(2, Except.error (ReqError.syntaxError "\x7b"))]
    ∧ (run initState (requestBurst Method.post "u"
        [(0, none, ModelKind.jsString), (1, none, ModelKind.jsString)])).networkCalls
        = 2 := by
  have h1 := (coalescing_exactly_for_cacheable Method.get "u").1 rfl 0 none
    ModelKind.jsString [(1, none, ModelKind.jsNumber)] (FetchResult.transportFail "x")
  have h2 := (coalescing_exactly_for_cacheable Method.get "w").1 rfl 2 none
    ModelKind.jsObject [(3, none, ModelKind.jsString)]
    (FetchResult.response (HttpResponse.mk 200 "OK" "\x7b"))
  refine ⟨h1.1, ?_, ?_, (coalescing_exactly_for_cacheable Method.post "u").2 rfl
    [(0, none, ModelKind.jsString), (1, none, ModelKind.jsString)]⟩
  · have hfan := h1.2.1 (Except.error (ReqError.transport "x")) rfl
    simpa using hfan
  · exact (h2.2.2 (ReqError.syntaxError "\x7b") rfl).1

/-- C2 (counterexample): the network call of a cacheable GET settles with a
success response, but its body `"["` makes the owner's array-shape
`JSON.parse` throw: the pending slot is not removed — the joined caller 1 is
still parked under the key — and a subsequent request with the same key joins
the stale slot, performing no new network call. -/
theorem settlement_parse_throw_counterexample :
    mapGet (stepSettle (run initState (requestBurst Method.get "u"
        [(0, none, ModelKind.jsArray), (1, none, ModelKind.jsString)])) 0
        (FetchResult.response (HttpResponse.mk 200 "OK" "["))).requestCache
        (cacheKey Method.get "u") = some [1]
    ∧ (stepRequest (stepSettle (run initState (requestBurst Method.get "u"
        [(0, none, ModelKind.jsArray), (1, none, ModelKind.jsString)])) 0
        (FetchResult.response (HttpResponse.mk 200 "OK" "["))) 2 Method.get "u" none
        ModelKind.jsArray).networkCalls
      = (stepSettle (run initState (requestBurst Method.get "u"
          [(0, none, ModelKind.jsArray), (1, none, ModelKind.jsString)])) 0
          (FetchResult.response (HttpResponse.mk 200 "OK" "["))).networkCalls :=
  ⟨rfl, rfl⟩

/-- C2 (amended): for every cacheable request, after any settlement of its
cache key whose termination drains — success with a coercible body,
classified HTTP error, transport failure, or type-mismatch — the pending
slot for that key is removed from the cache map, so a subsequent request
with the same key performs a new network call; after a settlement whose
`JSON.parse` throws, no drain block runs: the cache map is untouched and a
subsequent cacheable request with the same key joins the stale slot without
a network call; and invoking the slot settlement (fan-out and delete) for a
key with no slot is a no-op. -/
theorem settlement_clears_slot (st : RepoState) (c : Nat) (fr : FetchResult)
    (f : Flight) (k : String)
    (hf : findFlight st.inflight c = some f) (hk : f.key = some k) :
    (∀ outcome, settleOutcome f.shape fr = SettleResult.drains outcome →
      mapGet (stepSettle st c fr).requestCache k = none
      ∧ ∀ (c2 : Nat) (type : Method) (url : String) (b : Option String)
          (s : ModelKind), cacheKey type url = k →
          (stepRequest (stepSettle st c fr) c2 type url b s).networkCalls
            = (stepSettle st c fr).networkCalls + 1)
    ∧ (∀ e, settleOutcome f.shape fr = SettleResult.escapes e →
      (stepSettle st c fr).requestCache = st.requestCache
      ∧ ∀ (c2 : Nat) (type : Method) (url : String) (b : Option String)
          (s : ModelKind) (ws : List Nat),
          cacheKey type url = k → isCacheableRequest type = true →
          mapGet st.requestCache k = some ws →
          (stepRequest (stepSettle st c fr) c2 type url b s).networkCalls
            = (stepSettle st c fr).networkCalls)
    ∧ (∀ cache : RequestCache, mapGet cache k = none →
        settleSlot cache k = ([], cache)) := by
  refine ⟨fun outcome hd => ?_, fun e he => ?_, fun cache hnone => ?_⟩
  · have hclear := stepSettle_drains_clears st c fr f k outcome hf hk hd
    refine ⟨hclear, fun c2 type url b s hkey => ?_⟩
    have hget : mapGet (stepSettle st c fr).requestCache (cacheKey type url) = none := by
      rw [hkey]
      exact hclear
    cases hc : isCacheableRequest type with
    | false => simp [stepRequest, hc]
    | true => simp [stepRequest, hc, hget]
  · have hesc := stepSettle_escapes st c fr f e hf he
    refine ⟨hesc.1, fun c2 type url b s ws hkey hc hws => ?_⟩
    have hget : mapGet (stepSettle st c fr).requestCache (cacheKey type url)
        = some ws := by
      rw [hkey, hesc.1]
      exact hws
    simp [stepRequest, hc, hget]
  · simp [settleSlot, hnone]

/-- C2 (witness): a draining settle clears the slot and a re-issued GET
fetches anew; a parse-throwing settle leaves the slot and a re-issued GET
joins it with no network call; settling an absent key is a no-op. -/
theorem settlement_clears_slot_witness :
    mapGet (stepSettle (RepoState.mk [("GET v", [2])]
        [Flight.mk 1 (some "GET v") none ModelKind.jsNumber] 1 []) 1
        (FetchResult.response (HttpResponse.mk 200 "OK" "7"))).requestCache "GET v"
      = none
    ∧ (stepRequest (stepSettle (RepoState.mk [("GET v", [2])]
        [Flight.mk 1 (some "GET v") none ModelKind.jsNumber] 1 []) 1
        (FetchResult.response (HttpResponse.mk 200 "OK" "7"))) 3 Method.get "v" none
        ModelKind.jsString).networkCalls
      = (stepSettle (RepoState.mk [("GET v", [2])]
          [Flight.mk 1 (some "GET v") none ModelKind.jsNumber] 1 []) 1
          (FetchResult.response (HttpResponse.mk 200 "OK" "7"))).networkCalls + 1
    ∧ (stepSettle (RepoState.mk [("GET w", [2])]
        [Flight.mk 1 (some "GET w") none ModelKind.jsObject] 1 []) 1
        (FetchResult.response (HttpResponse.mk 200 "OK" "\x7b"))).requestCache
      = [("GET w", [2])]
    ∧ (stepRequest (stepSettle (RepoState.mk [("GET w", [2])]
        [Flight.mk 1 (some "GET w") none ModelKind.jsObject] 1 []) 1
        (FetchResult.response (HttpResponse.mk 200 "OK" "\x7b"))) 3 Method.get "w" none
        ModelKind.jsString).networkCalls
      = (stepSettle (RepoState.mk [("GET w", [2])]
          [Flight.mk 1 (some "GET w") none ModelKind.jsObject] 1 []) 1
          (FetchResult.response (HttpResponse.mk 200 "OK" "\x7b"))).networkCalls
    ∧ settleSlot [] "GET v" = ([], []) := by
  have hA := settlement_clears_slot (RepoState.mk [("GET v", [2])]
    [Flight.mk 1 (some "GET v") none ModelKind.jsNumber] 1 [])
    1 (FetchResult.response (HttpResponse.mk 200 "OK" "7"))
    (Flight.mk 1 (some "GET v") none ModelKind.jsNumber) "GET v" rfl rfl
  have hB := settlement_clears_slot (RepoState.mk [("GET w", [2])]
    [Flight.mk 1 (some "GET w") none ModelKind.jsObject] 1 [])
    1 (FetchResult.response (HttpResponse.mk 200 "OK" "\x7b"))
    (Flight.mk 1 (some "GET w") none ModelKind.jsObject) "GET w" rfl rfl
  have hA1 := hA.1 (Except.ok (JsData.numberOf "7")) rfl
  have hB1 := hB.2.1 (ReqError.syntaxError "\x7b") rfl
  exact ⟨hA1.1, hA1.2 3 Method.get "v" none ModelKind.jsString rfl,
    hB1.1, hB1.2 3 Method.get "w" none ModelKind.jsString [2] rfl rfl rfl,
    hA.2.2 [] rfl⟩

/-- C4: on a transport-level failure of a cacheable request — the fetch
itself fails, no HTTP response — every waiter joined on the request's pending
slot is rejected, in join order, with the very raised error, the slot is
cleared, and the same error then propagates to the owning caller. -/
theorem transport_failure_drains_slot (st : RepoState) (c : Nat) (msg : String)
    (f : Flight) (k : String) (ws : List Nat)
    (hf : findFlight st.inflight c = some f) (hk : f.key = some k)
    (hws : mapGet st.requestCache k = some ws) :
    (stepSettle st c (FetchResult.transportFail msg)).delivered
      = st.delivered
          ++ ws.map (fun w => (w, Except.error (ReqError.transport msg)))
          ++ [(c, Except.error (ReqError.transport msg))]
    ∧ mapGet (stepSettle st c (FetchResult.transportFail msg)).requestCache k
        = none := by
  refine ⟨?_, stepSettle_drains_clears st c (FetchResult.transportFail msg) f k
    (Except.error (ReqError.transport msg)) hf hk rfl⟩
  simp only [stepSettle, hf, settleOutcome, hk, settleSlot, hws]

/-- C4 (witness): a concrete transport failure rejects the joined waiter and
then the owner with the same error and clears the slot. -/
theorem transport_failure_drains_slot_witness :
    (stepSettle (RepoState.mk [("GET u", [1])]
        [Flight.mk 0 (some "GET u") none ModelKind.jsString] 1 []) 0
        (FetchResult.transportFail "boom")).delivered
      = [] ++ [1].map (fun w => (w, Except.error (ReqError.transport "boom")))
          ++ [(0, Except.error (ReqError.transport "boom"))]
    ∧ mapGet (stepSettle (RepoState.mk [("GET u", [1])]
        [Flight.mk 0 (some "GET u") none ModelKind.jsString] 1 []) 0
        (FetchResult.transportFail "boom")).requestCache "GET u" = none :=
  transport_failure_drains_slot (RepoState.mk [("GET u", [1])]
    [Flight.mk 0 (some "GET u") none ModelKind.jsString] 1 [])
    0 "boom" (Flight.mk 0 (some "GET u") none ModelKind.jsString) "GET u" [1]
    rfl rfl rfl

/-- C9 (counterexample): two concurrent GETs of the same url with different
bodies and declared shapes share the key, yet when the owning (first)
caller's shape is an array and the 200 body is the invalid JSON `"["`, the
joiner is never resolved at all — delivery reaches only the owner, with the
`SyntaxError` — rather than receiving a value coerced per the owner's
shape. -/
theorem joiner_parse_throw_counterexample :
    (stepSettle (run initState [Event.request 0 Method.get "u" none ModelKind.jsArray,
        Event.request 1 Method.get "u" (some "b") ModelKind.jsNumber]) 0
        (FetchResult.response (HttpResponse.mk 200 "OK" "["))).delivered
      = [(0, Except.error (ReqError.syntaxError "["))] := rfl

/-- C9 (amended): the cache key is derived from (method, url) alone.  Two
concurrent cacheable requests with equal method and url — whatever their
request bodies and declared result shapes — share one pending slot under
that key and cause one network call; on any settlement whose termination
drains, the joiner is resolved with the outcome coerced according to the
owning (first) caller's declared shape `s0`, its own shape `s1` playing no
part; on a settlement whose `JSON.parse` throws, the joiner is never
settled. -/
theorem cache_key_method_url_only (type : Method) (url : String)
    (b0 b1 : Option String) (s0 s1 : ModelKind) (fr : FetchResult)
    (h : isCacheableRequest type = true) :
    mapGet (run initState [Event.request 0 type url b0 s0,
        Event.request 1 type url b1 s1]).requestCache (cacheKey type url) = some [1]
    ∧ (run initState [Event.request 0 type url b0 s0,
          Event.request 1 type url b1 s1]).networkCalls = 1
    ∧ (∀ outcome, settleOutcome s0 fr = SettleResult.drains outcome →
        (stepSettle (run initState [Event.request 0 type url b0 s0,
            Event.request 1 type url b1 s1]) 0 fr).delivered
          = [(1, outcome), (0, outcome)])
    ∧ (∀ e, settleOutcome s0 fr = SettleResult.escapes e →
        (stepSettle (run initState [Event.request 0 type url b0 s0,
            Event.request 1 type url b1 s1]) 0 fr).delivered
          = [(0, Except.error e)]) := by
  have hrun : run initState [Event.request 0 type url b0 s0,
      Event.request 1 type url b1 s1]
      = RepoState.mk [(cacheKey type url, [1])]
          [{ caller := 0, key := some (cacheKey type url), body := b0, shape := s0 }]
          1 [] := by
    simp [run, step, stepRequest, h, initState, mapGet, mapSet]
  refine ⟨by rw [hrun]; simp [mapGet], by rw [hrun], fun outcome hd => ?_,
    fun e he => ?_⟩
  · rw [hrun]
    simp [stepSettle, findFlight, removeFlight, settleSlot, mapGet, mapDelete, hd]
  · rw [hrun]
    simp [stepSettle, findFlight, removeFlight, he]

/-- C9 (witness): concrete GETs with different bodies and shapes share the
slot; a draining settle hands the joiner the owner-shaped outcome, a
parse-throwing settle reaches only the owner. -/
theorem cache_key_method_url_only_witness :
    mapGet (run initState [Event.request 0 Method.get "u" none ModelKind.jsString,
        Event.request 1 Method.get "u" (some "b") ModelKind.jsNumber]).requestCache
        (cacheKey Method.get "u") = some [1]
    ∧ (stepSettle (run initState
          [Event.request 0 Method.get "u" none ModelKind.jsString,
           Event.request 1 Method.get "u" (some "b") ModelKind.jsNumber]) 0
          (FetchResult.response (HttpResponse.mk 200 "OK" "hello"))).delivered
        = [(1, Except.ok (JsData.rawString "hello")),
           (0, Except.ok (JsData.rawString "hello"))]
    ∧ (stepSettle (run initState
          [Event.request 0 Method.get "z" none ModelKind.jsArray,
           Event.request 1 Method.get "z" none ModelKind.jsNumber]) 0
          (FetchResult.response (HttpResponse.mk 200 "OK" "[1,"))).delivered
        = [(0, Except.error (ReqError.syntaxError "[1,"))] := by
  have h1 := cache_key_method_url_only Method.get "u" none (some "b")
    ModelKind.jsString ModelKind.jsNumber
    (FetchResult.response (HttpResponse.mk 200 "OK" "hello")) rfl
  have h2 := cache_key_method_url_only Method.get "z" none none
    ModelKind.jsArray ModelKind.jsNumber
    (FetchResult.response (HttpResponse.mk 200 "OK" "[1,")) rfl
  exact ⟨h1.1, h1.2.2.1 (Except.ok (JsData.rawString "hello")) rfl,
    h2.2.2.2 (ReqError.syntaxError "[1,") rfl⟩

end WebappCore
